import Mathlib

/-!
Shallow embedding of the metadata-reconciliation and column-projection engine
of the parquet-viewer backend (services/admin_service.py,
services/metadata_service.py, services/file_service.py, models/parquet_file.py).

Conventions of the embedding:
* All operations are modelled per fixed filename, so the `filename` key is
  dropped from per-file record structures.
* The analytical engine (DuckDB) is external: physical schemas, file stats and
  row contents are inputs; `DESCRIBE` output is a list of `SchemaRow`;
  `LIMIT n OFFSET m` is `(·.drop m).take n`; `CAST(col AS VARCHAR)` cell values
  are the `String` entries of a row association list.
* Python `sorted` is a stable sort: modelled by the stable `List.insertionSort`.
* Python sets are modelled by `List.dedup` lists, membership by `∈`/`contains`.
* SQL identifier quoting (`"col"`) is dropped: projections carry bare names.
-/

namespace ParquetViewer

/-- Whether a character list starts with a given pattern. -/
def listStartsWith : List Char → List Char → Bool
  | _, [] => true
  | [], _ :: _ => false
  | a :: as, b :: bs => a == b && listStartsWith as bs

/-- Whether a character list contains a given pattern as a contiguous run. -/
def listContainsChars : List Char → List Char → Bool
  | [], pat => pat.isEmpty
  | a :: as, pat => listStartsWith (a :: as) pat || listContainsChars as pat

/-- Python substring test `pat in s` (also the SQL `LIKE '%pat%'` test). -/
def strContains (s pat : String) : Bool := listContainsChars s.data pat.data

/-- Python `s.lower()` (character-wise lowercasing). -/
def pyLower (s : String) : String := ⟨s.data.map Char.toLower⟩

/-- Lexicographic strict order on code-point lists (the order Python and the
SQL engine use to compare strings, restricted to the code points). -/
def natListLt : List Nat → List Nat → Bool
  | _, [] => false
  | [], _ :: _ => true
  | a :: as, b :: bs => if a < b then true else if b < a then false else natListLt as bs

/-- Python string `<`: lexicographic by Unicode code point. -/
def pyStrLt (a b : String) : Bool := natListLt (a.data.map Char.toNat) (b.data.map Char.toNat)

/-- Python string `<=`. -/
def pyStrLe (a b : String) : Bool := !(pyStrLt b a)

/-- Python `s or fallback` for strings: the empty string is falsy. -/
def pyOrS (s fallback : String) : String := if s = "" then fallback else s

/-- Python `o or fallback` for an optional string (`None` and `""` are falsy). -/
def pyOrOptS (o : Option String) (fallback : String) : String :=
  match o with
  | none => fallback
  | some s => pyOrS s fallback

/-- One row of DuckDB `DESCRIBE SELECT * FROM parquet_scan(file)` output. -/
structure SchemaRow where
  column_name : String
  column_type : String
deriving DecidableEq, Repr

/-- A stored `ColumnMetadata` row for the fixed filename
(models/database_models.py `ColumnMetadata`; the `(filename, original_column_name)`
pair is unique in the table, so per file the `original_column_name` is a key). -/
structure ColumnMetadata where
  original_column_name : String
  display_name : Option String
  description : Option String
  data_type : Option String
  is_visible : Bool
  sort_order : Int
deriving DecidableEq, Repr

/-- The counts returned by `AdminService.sync_file_columns_metadata`. -/
structure SyncResults where
  created : Nat
  updated : Nat
  hidden : Nat
deriving DecidableEq, Repr

/-- `current_columns` of `sync_file_columns_metadata` (admin_service.py line
350): the set of physical column names. -/
def currentColumnsOf (schema : List SchemaRow) : List String :=
  (schema.map (·.column_name)).dedup

/-- `existing_columns` of `sync_file_columns_metadata` (admin_service.py line
358): the set of stored original column names. -/
def existingColumnsOf (existing : List ColumnMetadata) : List String :=
  (existing.map (·.original_column_name)).dedup

/-- `new_columns = current_columns - existing_columns` (admin_service.py line
363). -/
def newColumnsOf (schema : List SchemaRow) (existing : List ColumnMetadata) :
    List String :=
  (currentColumnsOf schema).filter fun c => decide (c ∉ existingColumnsOf existing)

/-- The `ColumnMetadata` rows inserted by the creation loop of
`sync_file_columns_metadata` (admin_service.py lines 364-376): one row per
physical column not yet stored, with `display_name` the original name,
`is_visible` true and `sort_order = len(existing_columns) + index`, where
`index` counts over the enumeration of the full physical schema. -/
def createdRowsOf (schema : List SchemaRow) (existing : List ColumnMetadata) :
    List ColumnMetadata :=
  schema.enum.filterMap fun p =>
    if p.2.column_name ∈ newColumnsOf schema existing then
      some { original_column_name := p.2.column_name
             display_name := some p.2.column_name
             description := none
             data_type := some p.2.column_type
             is_visible := true
             sort_order := ((existingColumnsOf existing).length : Int) + (p.1 : Int) }
    else none

/-- `removed_columns = existing_columns - current_columns` (admin_service.py
line 379). -/
def removedColumnsOf (schema : List SchemaRow) (existing : List ColumnMetadata) :
    List String :=
  (existingColumnsOf existing).filter fun c => decide (c ∉ currentColumnsOf schema)

/-- `AdminService.sync_file_columns_metadata` (admin_service.py lines 336-402),
as a pure function from the physical schema and the stored `ColumnMetadata`
rows for the filename to the returned counts and the new stored rows: new
columns are inserted (appended after the existing rows), removed columns have
`is_visible` set to false on their existing rows, and the counts report
`created = len(new rows)` and `hidden = len(removed_columns)` (with `hidden`
left 0 when `removed_columns` is empty, which gives the same value). -/
def syncFileColumnsMetadata (schema : List SchemaRow) (existing : List ColumnMetadata) :
    SyncResults × List ColumnMetadata :=
  ({ created := (createdRowsOf schema existing).length
     updated := 0
     hidden := (removedColumnsOf schema existing).length },
   (existing.map fun m =>
     if m.original_column_name ∈ removedColumnsOf schema existing then
       { m with is_visible := false }
     else m) ++ createdRowsOf schema existing)

/-- One entry of `AdminService.get_file_columns_admin`'s `columns_info`
(admin_service.py lines 220-237): the physical schema merged with any stored
metadata for each column (`metadata_id` is not modelled). -/
structure AdminColumnInfo where
  original_name : String
  display_name : Option String
  description : Option String
  data_type : String
  is_visible : Bool
  sort_order : Int
  has_metadata : Bool
deriving DecidableEq, Repr

/-- `AdminService.get_file_columns_admin` (admin_service.py lines 193-247),
restricted to the returned `columns` list (the pure part of the result).
The `existing_metadata` dict lookup is modelled by `find?` over the stored
rows, which agrees with the dict because `(filename, original_column_name)`
is unique. Python's stable `sorted(key=sort_order)` is modelled by the
stable `List.insertionSort`. -/
def getFileColumnsAdmin (schema : List SchemaRow) (existing : List ColumnMetadata) :
    List AdminColumnInfo :=
  let columnsInfo := schema.enum.map fun p =>
    match existing.find? (fun m => m.original_column_name == p.2.column_name) with
    | some m =>
      { original_name := p.2.column_name
        display_name := m.display_name
        description := m.description
        data_type := p.2.column_type
        is_visible := m.is_visible
        sort_order := m.sort_order
        has_metadata := true }
    | none =>
      { original_name := p.2.column_name
        display_name := some p.2.column_name
        description := some ""
        data_type := p.2.column_type
        is_visible := true
        sort_order := (p.1 : Int)
        has_metadata := false }
  columnsInfo.insertionSort fun a b => a.sort_order ≤ b.sort_order

/-- One column of the effective display schema returned by
`AdminService.get_columns_display_schema`. -/
structure DisplayColumn where
  original_name : String
  display_name : String
  description : Option String
  data_type : Option String
deriving DecidableEq, Repr

/-- The result of `AdminService.get_columns_display_schema`. -/
structure DisplaySchema where
  has_custom_names : Bool
  columns : List DisplayColumn
deriving DecidableEq, Repr

/-- The SQL `ORDER BY sort_order, original_column_name` comparison used when
fetching visible `ColumnMetadata` rows. -/
def colMetaLe (a b : ColumnMetadata) : Bool :=
  decide (a.sort_order < b.sort_order) ||
    (decide (a.sort_order = b.sort_order) &&
      pyStrLe a.original_column_name b.original_column_name)

/-- `AdminService.get_columns_display_schema` (admin_service.py lines 404-448):
fetch the visible stored rows ordered by `(sort_order, original_column_name)`;
if none, fall back to `get_file_columns_admin` filtered to visible entries
(there `display_name` is set to the original name and `description` to `None`);
otherwise return the stored rows, with `display_name or original_column_name`
as the shown name (Python `or`: `None` and `""` fall back). -/
def getColumnsDisplaySchema (schema : List SchemaRow) (stored : List ColumnMetadata) :
    DisplaySchema :=
  let metadataList :=
    (stored.filter (·.is_visible)).insertionSort fun a b => colMetaLe a b = true
  if metadataList.isEmpty then
    let columnsInfo := getFileColumnsAdmin schema stored
    { has_custom_names := false
      columns := (columnsInfo.filter (·.is_visible)).map fun col =>
        { original_name := col.original_name
          display_name := col.original_name
          description := none
          data_type := some col.data_type } }
  else
    { has_custom_names := true
      columns := metadataList.map fun m =>
        { original_name := m.original_column_name
          display_name := pyOrOptS m.display_name m.original_column_name
          description := m.description
          data_type := m.data_type } }

/-- The shape of the `SELECT` list built by
`FileService.get_file_data_with_display_names` (file_service.py lines 286-315):
`star` is `*`; `explicitCols` lists bare physical column names; `aliased`
lists `(original, display)` pairs rendered as `"orig" AS "display"`. -/
inductive Projection where
  | star : Projection
  | explicitCols : List String → Projection
  | aliased : List (String × String) → Projection
deriving DecidableEq, Repr

/-- Python truthiness of the optional `columns` argument: `None` and the empty
list are falsy. -/
def truthy (o : Option (List String)) : Bool :=
  match o with
  | none => false
  | some l => !l.isEmpty

/-- The `columns_mapping` dict of `get_file_data_with_display_names`
(file_service.py lines 275-277): display-schema columns keyed by
`original_name`, in display-schema order. -/
def mkColumnsMapping (ds : DisplaySchema) : List (String × DisplayColumn) :=
  ds.columns.map fun c => (c.original_name, c)

/-- The inner loop of the explicit-columns branch (file_service.py lines
292-301): find the first mapping entry whose `display_name` equals the
requested name and return its original name. -/
def findOriginalFor (columnsMapping : List (String × DisplayColumn)) (col : String) :
    Option String :=
  (columnsMapping.find? fun p => p.2.display_name == col).map (·.1)

/-- The projection-determination logic of `get_file_data_with_display_names`
(file_service.py lines 286-315), returning the `SELECT` list and the
`display_columns` variable (`none` models Python `display_columns = None`). -/
def determineProjection (columns : Option (List String)) (hasCustomNames : Bool)
    (columnsMapping : List (String × DisplayColumn)) :
    Projection × Option (List String) :=
  if truthy columns && hasCustomNames then
    let cs := columns.getD []
    let originalColumns := cs.map fun col =>
      match findOriginalFor columnsMapping col with
      | some orig => orig
      | none => col
    (.explicitCols originalColumns, some cs)
  else
    if hasCustomNames then
      let visibleCols := columnsMapping.map fun p => (p.1, p.2.display_name)
      ((if visibleCols.isEmpty then .star else .aliased visibleCols),
       some (columnsMapping.map fun p => p.2.display_name))
    else
      (.star, none)

/-- The physical column names a projection reads from the file, given the
physical schema's column-name list (`*` reads them all). -/
def projectionSelects (p : Projection) (physicalCols : List String) : List String :=
  match p with
  | .star => physicalCols
  | .explicitCols l => l
  | .aliased l => l.map (·.1)

/-- One disjunct of the search `WHERE` clause built by
`get_file_data_with_display_names` (file_service.py lines 328-336):
`textCond c` is `LOWER(CAST("c" AS VARCHAR)) LIKE LOWER('%term%')`,
`numericCond c` is `CAST("c" AS VARCHAR) LIKE '%term%'`. -/
inductive SearchCond where
  | textCond : String → SearchCond
  | numericCond : String → SearchCond
deriving DecidableEq, Repr

/-- The search-condition construction of `get_file_data_with_display_names`
(file_service.py lines 322-339): iterate the full `DESCRIBE` schema; a column
whose lowered type contains `varchar` or `string` gets a case-insensitive
substring condition; otherwise one whose lowered type contains `int`, `float`,
`double` or `decimal` gets a plain substring condition; other columns get no
condition. -/
def buildSearchConditions (schema : List SchemaRow) : List SearchCond :=
  schema.filterMap fun row =>
    let colType := pyLower row.column_type
    if strContains colType "varchar" || strContains colType "string" then
      some (.textCond row.column_name)
    else if strContains colType "int" || strContains colType "float" ||
        strContains colType "double" || strContains colType "decimal" then
      some (.numericCond row.column_name)
    else none

/-- A data row as the engine sees it for search purposes: column name to the
`CAST(col AS VARCHAR)` rendering of the cell. -/
abbrev RowV : Type := List (String × String)

/-- Cell lookup in a row (missing column reads as the empty string). -/
def cellOf (row : RowV) (col : String) : String :=
  ((row.find? fun p => p.1 == col).map (·.2)).getD ""

/-- SQL semantics of one search disjunct on a row (`LIKE '%term%'` is a
substring test; the text variant lowers both sides). -/
def evalSearchCond (term : String) (row : RowV) : SearchCond → Bool
  | .textCond c => strContains (pyLower (cellOf row c)) (pyLower term)
  | .numericCond c => strContains (cellOf row c) term

/-- Whether a row passes the search `WHERE` clause: when no column qualified
for a condition the code appends no `WHERE` clause at all, so every row
passes; otherwise the disjunction must hold. -/
def rowMatchesSearch (schema : List SchemaRow) (term : String) (row : RowV) : Bool :=
  let conds := buildSearchConditions schema
  conds.isEmpty || conds.any (evalSearchCond term row)

/-- The pagination block returned by `get_file_data_with_display_names`
(file_service.py lines 383-388). -/
structure PaginationInfo where
  page : Nat
  page_size : Nat
  total_rows : Nat
  total_pages : Nat
deriving DecidableEq, Repr

/-- The `WHERE` stage of the generated query: the file's rows that pass the
search filter (all rows when no term was supplied). -/
def filteredRowsOf (allRows : List RowV) (schema : List SchemaRow)
    (searchTerm : Option String) : List RowV :=
  match searchTerm with
  | some term => allRows.filter (rowMatchesSearch schema term)
  | none => allRows

/-- The `ORDER BY` stage: a stable sort of the filtered rows by the requested
comparison, or the engine order when no sort column is supplied. -/
def sortedRowsOf (allRows : List RowV) (schema : List SchemaRow)
    (searchTerm : Option String) (sortLe : Option (RowV → RowV → Bool)) : List RowV :=
  match sortLe with
  | some le => (filteredRowsOf allRows schema searchTerm).insertionSort
      fun a b => le a b = true
  | none => filteredRowsOf allRows schema searchTerm

/-- The filter/sort/paginate/count pipeline of
`get_file_data_with_display_names` (file_service.py lines 317-393), with the
engine's execution of the generated SQL modelled on the file's row list:
`WHERE` filters, `ORDER BY` is a sort by the given comparison, `LIMIT n OFFSET
m` is drop-then-take, and the parallel `COUNT(*)` query reuses only the
`WHERE` clause. `total_pages` is `(total_rows + page_size - 1) // page_size`. -/
def runDataQuery (allRows : List RowV) (schema : List SchemaRow)
    (searchTerm : Option String) (sortLe : Option (RowV → RowV → Bool))
    (page pageSize : Nat) : List RowV × PaginationInfo :=
  let offset := (page - 1) * pageSize
  let data := ((sortedRowsOf allRows schema searchTerm sortLe).drop offset).take pageSize
  let totalRows := (filteredRowsOf allRows schema searchTerm).length
  (data,
   { page := page
     page_size := pageSize
     total_rows := totalRows
     total_pages := (totalRows + pageSize - 1) / pageSize })

/-- A Python value appearing in a `FileMetadata` field, with its `str(...)`
rendering (strings render as themselves; tag lists render as Python list
repr). -/
inductive PVal where
  | pstr : String → PVal
  | plist : List String → PVal
deriving DecidableEq, Repr

/-- Python `str(v)` for the values above. -/
def PVal.pyStr : PVal → String
  | .pstr s => s
  | .plist l => "[" ++ String.intercalate ", " (l.map fun s => "'" ++ s ++ "'") ++ "]"

/-- A stored `FileMetadata` row (models/database_models.py): the business
fields the update path touches, plus `updated_at` modelled as a tick count.
`title` and `permissions` are non-null columns; `tags` defaults to the empty
list. The cached technical stats are not touched by `update_metadata` and are
omitted. -/
structure StoredFileMetadata where
  id : Nat
  filename : String
  title : String
  description : Option String
  responsible : Option String
  frequency : Option String
  permissions : String
  tags : List String
  updated_at : Nat
deriving DecidableEq, Repr

/-- Python `getattr(current_metadata, field)` for the updatable fields,
wrapped into `PVal` (`none` is a stored SQL `NULL`). -/
def getField (m : StoredFileMetadata) : String → Option PVal
  | "title" => some (.pstr m.title)
  | "description" => m.description.map .pstr
  | "responsible" => m.responsible.map .pstr
  | "frequency" => m.frequency.map .pstr
  | "permissions" => some (.pstr m.permissions)
  | "tags" => some (.plist m.tags)
  | _ => none

/-- The pydantic `FileMetadataUpdate` patch: every field optional, `none`
meaning the field was not supplied. -/
structure FileMetadataUpdate where
  title : Option String
  description : Option String
  responsible : Option String
  frequency : Option String
  permissions : Option String
  tags : Option (List String)
deriving DecidableEq, Repr

/-- `metadata.dict()` filtered to the non-`None` fields, in pydantic field
order: the `update_data` dict of `MetadataService.update_metadata`
(metadata_service.py line 53). -/
def updateData (patch : FileMetadataUpdate) : List (String × PVal) :=
  ([("title", patch.title.map .pstr),
    ("description", patch.description.map .pstr),
    ("responsible", patch.responsible.map .pstr),
    ("frequency", patch.frequency.map .pstr),
    ("permissions", patch.permissions.map .pstr),
    ("tags", patch.tags.map .plist)]).filterMap
    fun p => p.2.map fun v => (p.1, v)

/-- One `MetadataHistory` row as inserted by
`MetadataService._record_history_changes`. -/
structure HistoryRow where
  file_id : Nat
  field_changed : String
  old_value : Option String
  new_value : Option String
  changed_by : String
deriving DecidableEq, Repr

/-- `MetadataService._record_history_changes` (metadata_service.py lines
176-198): for each updated field other than `updated_at`, compare the stored
value with the new one and add a history row only when they differ, storing
`str(old)` / `str(new)` (`None` stays `None`). -/
def recordHistoryChanges (current : StoredFileMetadata)
    (upd : List (String × PVal)) (changedBy : String) : List HistoryRow :=
  upd.filterMap fun p =>
    if p.1 = "updated_at" then none
    else
      let oldValue := getField current p.1
      if oldValue = some p.2 then none
      else
        some { file_id := current.id
               field_changed := p.1
               old_value := oldValue.map PVal.pyStr
               new_value := some p.2.pyStr
               changed_by := changedBy }

/-- The SQL `UPDATE ... VALUES(**update_data, updated_at=now)` of
`update_metadata` (metadata_service.py lines 62-64): each supplied field is
overwritten, `updated_at` is set to the current time. -/
def applyUpdate (m : StoredFileMetadata) (patch : FileMetadataUpdate) (now : Nat) :
    StoredFileMetadata :=
  { m with
    title := patch.title.getD m.title
    description := match patch.description with
      | some d => some d
      | none => m.description
    responsible := match patch.responsible with
      | some r => some r
      | none => m.responsible
    frequency := match patch.frequency with
      | some f => some f
      | none => m.frequency
    permissions := patch.permissions.getD m.permissions
    tags := patch.tags.getD m.tags
    updated_at := now }

/-- `MetadataService.update_metadata` (metadata_service.py lines 39-70) for
the fixed filename: `current` is the looked-up record (`none` = not found).
Returns the record handed back to the caller, the history rows added, and
whether the `UPDATE` statement was executed at all. When every patch field is
`None` the current record is returned untouched, with no history and no
write. -/
def updateMetadata (current : Option StoredFileMetadata)
    (patch : FileMetadataUpdate) (changedBy : String) (now : Nat) :
    Option StoredFileMetadata × List HistoryRow × Bool :=
  match current with
  | none => (none, [], false)
  | some m =>
    let upd := updateData patch
    if upd.isEmpty then (some m, [], false)
    else (some (applyUpdate m patch now), recordHistoryChanges m upd changedBy, true)

/-- The technical half of a combined file record, as produced by
`ParquetFile.get_info` (models/parquet_file.py lines 17-41). `size_mb` is the
already-rounded megabyte figure (a rational in the model); the row/column
fields are optional because `get_info`'s exception path omits them and
`get_all_files_combined` reads them with `.get`. -/
structure TechnicalData where
  size_bytes : Nat
  size_mb : Rat
  modified : String
  row_count : Option Nat
  column_count : Option Nat
  columns : List SchemaRow
deriving DecidableEq, Repr

/-- The default technical dict used for a metadata record whose physical file
is gone (file_service.py lines 39-47). -/
def missingTechnicalData : TechnicalData :=
  { size_bytes := 0
    size_mb := 0
    modified := ""
    row_count := none
    column_count := none
    columns := [] }

/-- The `CombinedFileInfo` record (models/database_models.py lines 94-114),
with timestamps as tick counts. -/
structure CombinedFileInfo where
  name : String
  size_bytes : Nat
  size_mb : Rat
  modified : String
  row_count : Option Nat
  column_count : Option Nat
  columns : List SchemaRow
  id : Option Nat
  title : Option String
  description : Option String
  responsible : Option String
  frequency : Option String
  permissions : String
  tags : List String
  created_at : Option Nat
  updated_at : Option Nat
deriving DecidableEq, Repr

/-- A stored record paired with its `created_at` tick (kept out of
`StoredFileMetadata` because `update_metadata` never touches it). -/
structure StoredFileMetadataFull where
  meta : StoredFileMetadata
  created_at : Nat
deriving DecidableEq, Repr

/-- The merge of one filename's technical data and metadata into a
`CombinedFileInfo` (file_service.py lines 37-75). -/
def combineOne (physicalFiles : List (String × TechnicalData))
    (metadataList : List StoredFileMetadataFull) (filename : String) :
    CombinedFileInfo :=
  let technicalData :=
    ((physicalFiles.find? fun p => p.1 == filename).map (·.2)).getD missingTechnicalData
  let metadata := metadataList.find? fun m => m.meta.filename == filename
  { name := filename
    size_bytes := technicalData.size_bytes
    size_mb := technicalData.size_mb
    modified := technicalData.modified
    row_count := technicalData.row_count
    column_count := technicalData.column_count
    columns := technicalData.columns
    id := metadata.map (·.meta.id)
    title := metadata.map (·.meta.title)
    description := metadata.bind (·.meta.description)
    responsible := metadata.bind (·.meta.responsible)
    frequency := metadata.bind (·.meta.frequency)
    permissions := (metadata.map (·.meta.permissions)).getD "public"
    tags := (metadata.map (·.meta.tags)).getD []
    created_at := metadata.map (·.created_at)
    updated_at := metadata.map (·.meta.updated_at) }

/-- The sort key of the final `sorted(..., key=lambda x: x.modified or "",
reverse=True)` (file_service.py line 77). -/
def combinedSortKey (x : CombinedFileInfo) : String := pyOrS x.modified ""

/-- The union of physical and metadata filenames (Python set union, modelled
in first-occurrence order). -/
def unionFilenames (physicalFiles : List (String × TechnicalData))
    (metadataList : List StoredFileMetadataFull) : List String :=
  (physicalFiles.map Prod.fst ++ metadataList.map (·.meta.filename)).dedup

/-- `FileService.get_all_files_combined` (file_service.py lines 19-77): one
combined record per filename in the union of the physical directory and the
metadata table, sorted by last-modified timestamp descending (Python's stable
descending sort). -/
def getAllFilesCombined (physicalFiles : List (String × TechnicalData))
    (metadataList : List StoredFileMetadataFull) : List CombinedFileInfo :=
  let combinedFiles :=
    (unionFilenames physicalFiles metadataList).map
      (combineOne physicalFiles metadataList)
  combinedFiles.insertionSort fun a b =>
    pyStrLt (combinedSortKey a) (combinedSortKey b) = false

/-! ### Lemmas about drift synchronization -/

lemma mem_currentColumnsOf {schema : List SchemaRow} {c : String} :
    c ∈ currentColumnsOf schema ↔ ∃ r ∈ schema, r.column_name = c := by
  unfold currentColumnsOf
  rw [List.mem_dedup, List.mem_map]

lemma mem_existingColumnsOf {existing : List ColumnMetadata} {c : String} :
    c ∈ existingColumnsOf existing ↔ ∃ m ∈ existing, m.original_column_name = c := by
  unfold existingColumnsOf
  rw [List.mem_dedup, List.mem_map]

lemma mem_newColumnsOf {schema : List SchemaRow} {existing : List ColumnMetadata}
    {c : String} :
    c ∈ newColumnsOf schema existing ↔
      c ∈ currentColumnsOf schema ∧ c ∉ existingColumnsOf existing := by
  unfold newColumnsOf
  rw [List.mem_filter]
  simp only [decide_eq_true_eq]

lemma mem_removedColumnsOf {schema : List SchemaRow} {existing : List ColumnMetadata}
    {c : String} :
    c ∈ removedColumnsOf schema existing ↔
      c ∈ existingColumnsOf existing ∧ c ∉ currentColumnsOf schema := by
  unfold removedColumnsOf
  rw [List.mem_filter]
  simp only [decide_eq_true_eq]

lemma exists_mem_enum_of_mem {α : Type _} {l : List α} {a : α} (h : a ∈ l) :
    ∃ p ∈ l.enum, p.2 = a := by
  have h2 : a ∈ l.enum.map Prod.snd := by rw [List.enum_map_snd]; exact h
  exact List.mem_map.1 h2

lemma snd_mem_of_mem_enum {α : Type _} {l : List α} {p : Nat × α} (h : p ∈ l.enum) :
    p.2 ∈ l := by
  rw [← List.enum_map_snd l]
  exact List.mem_map_of_mem _ h

lemma mem_createdRowsOf {schema : List SchemaRow} {existing : List ColumnMetadata}
    {m : ColumnMetadata} :
    m ∈ createdRowsOf schema existing ↔
      ∃ p ∈ schema.enum, p.2.column_name ∈ newColumnsOf schema existing ∧
        m = { original_column_name := p.2.column_name
              display_name := some p.2.column_name
              description := none
              data_type := some p.2.column_type
              is_visible := true
              sort_order := ((existingColumnsOf existing).length : Int) + (p.1 : Int) } := by
  unfold createdRowsOf
  rw [List.mem_filterMap]
  constructor
  · rintro ⟨p, hp, hsome⟩
    by_cases hcond : p.2.column_name ∈ newColumnsOf schema existing
    · rw [if_pos hcond] at hsome
      exact ⟨p, hp, hcond, (Option.some.injEq _ _ ▸ hsome).symm⟩
    · rw [if_neg hcond] at hsome
      cases hsome
  · rintro ⟨p, hp, hcond, hm⟩
    exact ⟨p, hp, by rw [if_pos hcond, hm]⟩

lemma mem_createdRowsOf_names {schema : List SchemaRow} {existing : List ColumnMetadata}
    {c : String} :
    c ∈ (createdRowsOf schema existing).map (·.original_column_name) ↔
      c ∈ currentColumnsOf schema ∧ c ∉ existingColumnsOf existing := by
  rw [List.mem_map]
  constructor
  · rintro ⟨m, hm, hname⟩
    rcases mem_createdRowsOf.1 hm with ⟨p, hp, hcond, heq⟩
    subst heq
    rw [← hname]
    exact mem_newColumnsOf.1 hcond
  · rintro ⟨hcur, hnot⟩
    rcases mem_currentColumnsOf.1 hcur with ⟨r, hr, hrc⟩
    rcases exists_mem_enum_of_mem hr with ⟨p, hp, hpr⟩
    refine ⟨_, mem_createdRowsOf.2 ⟨p, hp, ?_, rfl⟩, by rw [hpr, hrc]⟩
    rw [hpr, hrc]
    exact mem_newColumnsOf.2 ⟨hcur, hnot⟩

lemma syncState_names_mem {schema : List SchemaRow} {existing : List ColumnMetadata}
    {c : String} :
    c ∈ (syncFileColumnsMetadata schema existing).2.map (·.original_column_name) ↔
      c ∈ existing.map (·.original_column_name) ∨
        (c ∈ currentColumnsOf schema ∧ c ∉ existingColumnsOf existing) := by
  unfold syncFileColumnsMetadata
  rw [List.map_append, List.mem_append, mem_createdRowsOf_names, List.map_map]
  have h : (existing.map fun m =>
      ((if m.original_column_name ∈ removedColumnsOf schema existing then
        { m with is_visible := false } else m) : ColumnMetadata).original_column_name) =
      existing.map (·.original_column_name) := by
    apply List.map_congr_left
    intro a _
    split <;> rfl
  rw [show ((fun x : ColumnMetadata => x.original_column_name) ∘ fun m =>
      if m.original_column_name ∈ removedColumnsOf schema existing then
        { m with is_visible := false } else m) = fun m : ColumnMetadata =>
      ((if m.original_column_name ∈ removedColumnsOf schema existing then
        { m with is_visible := false } else m) : ColumnMetadata).original_column_name from rfl,
    h]

lemma mem_existingColumnsOf_syncState {schema : List SchemaRow}
    {existing : List ColumnMetadata} {c : String} :
    c ∈ existingColumnsOf (syncFileColumnsMetadata schema existing).2 ↔
      c ∈ existingColumnsOf existing ∨
        (c ∈ currentColumnsOf schema ∧ c ∉ existingColumnsOf existing) := by
  unfold existingColumnsOf
  rw [List.mem_dedup, syncState_names_mem, ← List.mem_dedup (l := existing.map _)]
  exact Iff.rfl

lemma newColumnsOf_syncState (schema : List SchemaRow) (existing : List ColumnMetadata) :
    newColumnsOf schema (syncFileColumnsMetadata schema existing).2 = [] := by
  rw [List.eq_nil_iff_forall_not_mem]
  intro c hc
  rcases mem_newColumnsOf.1 hc with ⟨hcur, hnot⟩
  apply hnot
  rw [mem_existingColumnsOf_syncState]
  by_cases hex : c ∈ existingColumnsOf existing
  · exact Or.inl hex
  · exact Or.inr ⟨hcur, hex⟩

lemma createdRowsOf_syncState (schema : List SchemaRow) (existing : List ColumnMetadata) :
    createdRowsOf schema (syncFileColumnsMetadata schema existing).2 = [] := by
  unfold createdRowsOf
  rw [List.filterMap_eq_nil_iff]
  intro p _
  rw [if_neg]
  rw [newColumnsOf_syncState]
  exact List.not_mem_nil _

lemma mem_removedColumnsOf_syncState {schema : List SchemaRow}
    {existing : List ColumnMetadata} {c : String} :
    c ∈ removedColumnsOf schema (syncFileColumnsMetadata schema existing).2 ↔
      c ∈ removedColumnsOf schema existing := by
  rw [mem_removedColumnsOf, mem_removedColumnsOf, mem_existingColumnsOf_syncState]
  constructor
  · rintro ⟨h1 | h1, h2⟩
    · exact ⟨h1, h2⟩
    · exact absurd h1.1 h2
  · rintro ⟨h1, h2⟩
    exact ⟨Or.inl h1, h2⟩

lemma removedColumnsOf_nodup (schema : List SchemaRow) (existing : List ColumnMetadata) :
    (removedColumnsOf schema existing).Nodup :=
  List.Nodup.filter _ (List.nodup_dedup _)

lemma removedColumnsOf_syncState_length (schema : List SchemaRow)
    (existing : List ColumnMetadata) :
    (removedColumnsOf schema (syncFileColumnsMetadata schema existing).2).length =
      (removedColumnsOf schema existing).length := by
  apply List.Perm.length_eq
  rw [List.perm_ext_iff_of_nodup (removedColumnsOf_nodup _ _) (removedColumnsOf_nodup _ _)]
  intro c
  exact mem_removedColumnsOf_syncState

lemma syncState_second_run (schema : List SchemaRow) (existing : List ColumnMetadata) :
    (syncFileColumnsMetadata schema (syncFileColumnsMetadata schema existing).2).2 =
      (syncFileColumnsMetadata schema existing).2 := by
  have hunfold :
      (syncFileColumnsMetadata schema (syncFileColumnsMetadata schema existing).2).2 =
        ((syncFileColumnsMetadata schema existing).2.map fun m =>
          if m.original_column_name ∈
              removedColumnsOf schema (syncFileColumnsMetadata schema existing).2 then
            ({ m with is_visible := false } : ColumnMetadata)
          else m) ++
          createdRowsOf schema (syncFileColumnsMetadata schema existing).2 := rfl
  rw [hunfold, createdRowsOf_syncState, List.append_nil]
  have hmap : ∀ m ∈ (syncFileColumnsMetadata schema existing).2,
      (if m.original_column_name ∈
          removedColumnsOf schema (syncFileColumnsMetadata schema existing).2 then
        ({ m with is_visible := false } : ColumnMetadata)
      else m) = m := by
    intro m hm
    split
    case isFalse => rfl
    case isTrue hrem =>
      have hrem1 : m.original_column_name ∈ removedColumnsOf schema existing :=
        mem_removedColumnsOf_syncState.1 hrem
      have hnotcur : m.original_column_name ∉ currentColumnsOf schema :=
        (mem_removedColumnsOf.1 hrem1).2
      have hvis : m.is_visible = false := by
        unfold syncFileColumnsMetadata at hm
        rcases List.mem_append.1 hm with hm1 | hm1
        · rcases List.mem_map.1 hm1 with ⟨m0, hm0, heq⟩
          by_cases hc : m0.original_column_name ∈ removedColumnsOf schema existing
          · rw [if_pos hc] at heq
            rw [← heq]
          · rw [if_neg hc] at heq
            subst heq
            exact absurd hrem1 hc
        · rcases mem_createdRowsOf.1 hm1 with ⟨p, hp, hcond, heq⟩
          exfalso
          apply hnotcur
          rw [heq]
          exact (mem_newColumnsOf.1 hcond).1
      cases m
      simp only at hvis
      subst hvis
      rfl
  rw [List.map_congr_left hmap]
  exact List.map_id' _

/-- C1: as stated the claim is false. With physical column set `{a}` and a
stored row for `b` only, the first sync creates `a` and hides `b`; the second
sync, with no physical change, again reports `hidden = 1` (the stored name
`b` is still missing from the file because hidden rows are never deleted), so
its created and newly-hidden counts are not both zero. -/
theorem C1_counterexample :
    ¬ ((syncFileColumnsMetadata [⟨"a", "INTEGER"⟩]
        (syncFileColumnsMetadata [⟨"a", "INTEGER"⟩]
          [⟨"b", some "b", none, some "INTEGER", true, 0⟩]).2).1.created = 0 ∧
      (syncFileColumnsMetadata [⟨"a", "INTEGER"⟩]
        (syncFileColumnsMetadata [⟨"a", "INTEGER"⟩]
          [⟨"b", some "b", none, some "INTEGER", true, 0⟩]).2).1.hidden = 0) := by
  decide

/-- C1 (amended): running `sync_file_columns_metadata` a second time with no
intervening change to the physical column set always reports zero created
columns and leaves the stored rows unchanged; its hidden count equals the
first run's hidden count (the stored names missing from the file are
re-reported, so it is zero exactly when the first run hid nothing), rather
than always being zero. -/
theorem C1_sync_second_run (schema : List SchemaRow) (existing : List ColumnMetadata) :
    (syncFileColumnsMetadata schema (syncFileColumnsMetadata schema existing).2).1.created
        = 0 ∧
    (syncFileColumnsMetadata schema (syncFileColumnsMetadata schema existing).2).2
        = (syncFileColumnsMetadata schema existing).2 ∧
    (syncFileColumnsMetadata schema (syncFileColumnsMetadata schema existing).2).1.hidden
        = (syncFileColumnsMetadata schema existing).1.hidden := by
  refine ⟨?_, syncState_second_run schema existing, ?_⟩
  · show (createdRowsOf schema (syncFileColumnsMetadata schema existing).2).length = 0
    rw [createdRowsOf_syncState]
    rfl
  · show (removedColumnsOf schema (syncFileColumnsMetadata schema existing).2).length = _
    rw [removedColumnsOf_syncState_length]
    rfl

/-- C3: as stated the claim is false. With physical schema `[a, b]` and a
stored row for `a` only, the new column `b` has index 0 in the enumeration of
the new (previously unstored) columns, so the claim predicts
`sort_order = 1 + 0 = 1`; the code enumerates the full physical schema, where
`b` has index 1, and stores `sort_order = 1 + 1 = 2`. -/
theorem C3_counterexample :
    ((syncFileColumnsMetadata [⟨"a", "INTEGER"⟩, ⟨"b", "VARCHAR"⟩]
        [⟨"a", some "a", none, some "INTEGER", true, 0⟩]).2.filter
      (fun m => m.original_column_name == "b")).map (·.sort_order) = [2] ∧
    (2 : Int) ≠ 1 + 0 := by decide

/-- C3 (amended): during drift synchronization, for every physical column with
no stored `ColumnMetadata` row, a new row is inserted with `display_name`
equal to the original column name, `is_visible` true and `sort_order` equal to
the count of distinct stored column names plus that column's index in the
enumeration of the full physical schema (not its index among the new columns
only). -/
theorem C3_created_row_shape (schema : List SchemaRow) (existing : List ColumnMetadata)
    (i : Nat) (row : SchemaRow) (hp : (i, row) ∈ schema.enum)
    (hnostored : ∀ m ∈ existing, m.original_column_name ≠ row.column_name) :
    ({ original_column_name := row.column_name
       display_name := some row.column_name
       description := none
       data_type := some row.column_type
       is_visible := true
       sort_order := ((existingColumnsOf existing).length : Int) + (i : Int) } :
      ColumnMetadata) ∈ (syncFileColumnsMetadata schema existing).2 := by
  have hcur : row.column_name ∈ currentColumnsOf schema :=
    mem_currentColumnsOf.2 ⟨row, snd_mem_of_mem_enum hp, rfl⟩
  have hnot : row.column_name ∉ existingColumnsOf existing := by
    intro hmem
    rcases mem_existingColumnsOf.1 hmem with ⟨m, hm, hname⟩
    exact hnostored m hm hname
  have hnew : row.column_name ∈ newColumnsOf schema existing :=
    mem_newColumnsOf.2 ⟨hcur, hnot⟩
  have hcreated :
      ({ original_column_name := row.column_name
         display_name := some row.column_name
         description := none
         data_type := some row.column_type
         is_visible := true
         sort_order := ((existingColumnsOf existing).length : Int) + (i : Int) } :
        ColumnMetadata) ∈ createdRowsOf schema existing :=
    mem_createdRowsOf.2 ⟨(i, row), hp, hnew, rfl⟩
  exact List.mem_append.2 (Or.inr hcreated)

/-- Witness for C3: physical schema `[a, b]`, stored row for `a` only; the
inserted row for `b` carries `sort_order = 1 + 1 = 2`. -/
theorem C3_created_row_shape_witness :
    ({ original_column_name := "b"
       display_name := some "b"
       description := none
       data_type := some "VARCHAR"
       is_visible := true
       sort_order := 2 } : ColumnMetadata) ∈
      (syncFileColumnsMetadata [⟨"a", "INTEGER"⟩, ⟨"b", "VARCHAR"⟩]
        [⟨"a", some "a", none, some "INTEGER", true, 0⟩]).2 := by
  have h := C3_created_row_shape [⟨"a", "INTEGER"⟩, ⟨"b", "VARCHAR"⟩]
    [⟨"a", some "a", none, some "INTEGER", true, 0⟩] 1 ⟨"b", "VARCHAR"⟩
    (by decide) (by decide)
  exact h

/-! ### Lemmas about the effective display schema -/

lemma getColumnsDisplaySchema_of_visible (schema : List SchemaRow)
    (stored : List ColumnMetadata) (hvis : stored.filter (·.is_visible) ≠ []) :
    getColumnsDisplaySchema schema stored =
      { has_custom_names := true
        columns :=
          ((stored.filter (·.is_visible)).insertionSort fun a b => colMetaLe a b = true).map
            fun m =>
              { original_name := m.original_column_name
                display_name := pyOrOptS m.display_name m.original_column_name
                description := m.description
                data_type := m.data_type } } := by
  unfold getColumnsDisplaySchema
  rw [if_neg]
  intro h
  apply hvis
  have hperm := List.perm_insertionSort (fun a b => colMetaLe a b = true)
    (stored.filter (·.is_visible))
  rw [List.isEmpty_iff] at h
  rw [h] at hperm
  exact (hperm.symm).eq_nil

lemma pairwise_enumFrom_fst_lt {α : Type _} (l : List α) (n : Nat) :
    (l.enumFrom n).Pairwise fun p q => p.1 < q.1 := by
  induction l generalizing n with
  | nil => simp
  | cons a t ih =>
    rw [List.enumFrom_cons]
    refine List.Pairwise.cons ?_ (ih (n + 1))
    rintro ⟨i, x⟩ hq
    have h := (List.mem_enumFrom hq).1
    simp only at h ⊢
    omega

lemma getColumnsDisplaySchema_nil (schema : List SchemaRow) :
    getColumnsDisplaySchema schema [] =
      { has_custom_names := false
        columns := schema.map fun r =>
          { original_name := r.column_name
            display_name := r.column_name
            description := none
            data_type := some r.column_type } } := by
  have hbranch : getColumnsDisplaySchema schema [] =
      { has_custom_names := false
        columns := ((getFileColumnsAdmin schema []).filter (·.is_visible)).map fun col =>
          { original_name := col.original_name
            display_name := col.original_name
            description := none
            data_type := some col.data_type } } := rfl
  rw [hbranch]
  have hinfos : getFileColumnsAdmin schema [] =
      schema.enum.map fun p =>
        ({ original_name := p.2.column_name
           display_name := some p.2.column_name
           description := some ""
           data_type := p.2.column_type
           is_visible := true
           sort_order := (p.1 : Int)
           has_metadata := false } : AdminColumnInfo) := by
    unfold getFileColumnsAdmin
    apply List.Sorted.insertionSort_eq
    rw [List.Sorted, List.pairwise_map]
    refine (pairwise_enumFrom_fst_lt schema 0).imp ?_
    intro p q h
    show ((p.1 : Nat) : Int) ≤ ((q.1 : Nat) : Int)
    exact_mod_cast Nat.le_of_lt h
  rw [hinfos]
  have hfilter : ((schema.enum.map fun p =>
      ({ original_name := p.2.column_name
         display_name := some p.2.column_name
         description := some ""
         data_type := p.2.column_type
         is_visible := true
         sort_order := (p.1 : Int)
         has_metadata := false } : AdminColumnInfo)).filter (·.is_visible)) =
      schema.enum.map fun p =>
        ({ original_name := p.2.column_name
           display_name := some p.2.column_name
           description := some ""
           data_type := p.2.column_type
           is_visible := true
           sort_order := (p.1 : Int)
           has_metadata := false } : AdminColumnInfo) := by
    rw [List.filter_eq_self]
    intro a ha
    rcases List.mem_map.1 ha with ⟨p, _, hp⟩
    rw [← hp]
  rw [hfilter, List.map_map]
  have hcomp : ((fun col : AdminColumnInfo =>
      ({ original_name := col.original_name
         display_name := col.original_name
         description := none
         data_type := some col.data_type } : DisplayColumn)) ∘ fun p : Nat × SchemaRow =>
      ({ original_name := p.2.column_name
         display_name := some p.2.column_name
         description := some ""
         data_type := p.2.column_type
         is_visible := true
         sort_order := (p.1 : Int)
         has_metadata := false } : AdminColumnInfo)) =
      (fun r : SchemaRow =>
        ({ original_name := r.column_name
           display_name := r.column_name
           description := none
           data_type := some r.column_type } : DisplayColumn)) ∘ Prod.snd := rfl
  rw [hcomp, ← List.map_map, List.enum_map_snd]

/-- C4: as stated the claim is false. The filename below has a stored
`ColumnMetadata` row (for `a`, invisible), yet the effective display schema is
computed through the physical-schema fallback (the code tests the *visible*
rows for emptiness) and contains exactly the physical column `b`, which has no
stored row. -/
theorem C4_counterexample :
    ([⟨"a", some "A", none, some "INTEGER", false, 0⟩] : List ColumnMetadata) ≠ [] ∧
    ((getColumnsDisplaySchema [⟨"a", "INTEGER"⟩, ⟨"b", "INTEGER"⟩]
      [⟨"a", some "A", none, some "INTEGER", false, 0⟩]).columns.map (·.original_name))
      = ["b"] ∧
    ∀ m ∈ ([⟨"a", some "A", none, some "INTEGER", false, 0⟩] : List ColumnMetadata),
      m.original_column_name ≠ "b" := by decide

/-- C4 (amended): for every filename with at least one *visible* stored
`ColumnMetadata` row, the effective display schema consists exactly of the
stored visible rows — the displayed original names are a permutation of the
visible stored names, and every displayed column originates from a visible
stored row, so a physical column with no stored row does not appear. (When
rows exist but all are invisible the code falls back to the physical schema
instead; see the counterexample.) -/
theorem C4_opt_in_visibility (schema : List SchemaRow) (stored : List ColumnMetadata)
    (hvis : stored.filter (·.is_visible) ≠ []) :
    (getColumnsDisplaySchema schema stored).has_custom_names = true ∧
    ((getColumnsDisplaySchema schema stored).columns.map (·.original_name)).Perm
      ((stored.filter (·.is_visible)).map (·.original_column_name)) ∧
    ∀ c ∈ (getColumnsDisplaySchema schema stored).columns,
      ∃ m ∈ stored, m.is_visible = true ∧ m.original_column_name = c.original_name := by
  rw [getColumnsDisplaySchema_of_visible schema stored hvis]
  refine ⟨rfl, ?_, ?_⟩
  · rw [List.map_map]
    exact (List.perm_insertionSort _ _).map _
  · intro c hc
    rcases List.mem_map.1 hc with ⟨m, hm, hcm⟩
    have hm2 : m ∈ stored.filter (·.is_visible) :=
      ((List.perm_insertionSort _ _).mem_iff).1 hm
    rcases List.mem_filter.1 hm2 with ⟨hmem, hvis2⟩
    refine ⟨m, hmem, by simpa using hvis2, ?_⟩
    rw [← hcm]

/-- Witness for C4: file `sales.parquet` with physical columns
`[id, amt, region]` and a single visible stored row for `region`. -/
theorem C4_opt_in_visibility_witness :
    (getColumnsDisplaySchema
        [⟨"id", "INTEGER"⟩, ⟨"amt", "DOUBLE"⟩, ⟨"region", "VARCHAR"⟩]
        [⟨"region", some "Region", none, some "VARCHAR", true, 0⟩]).has_custom_names
      = true ∧
    ((getColumnsDisplaySchema
        [⟨"id", "INTEGER"⟩, ⟨"amt", "DOUBLE"⟩, ⟨"region", "VARCHAR"⟩]
        [⟨"region", some "Region", none, some "VARCHAR", true, 0⟩]).columns.map
      (·.original_name)).Perm
      ((([⟨"region", some "Region", none, some "VARCHAR", true, 0⟩] :
          List ColumnMetadata).filter (·.is_visible)).map (·.original_column_name)) ∧
    ∀ c ∈ (getColumnsDisplaySchema
        [⟨"id", "INTEGER"⟩, ⟨"amt", "DOUBLE"⟩, ⟨"region", "VARCHAR"⟩]
        [⟨"region", some "Region", none, some "VARCHAR", true, 0⟩]).columns,
      ∃ m ∈ ([⟨"region", some "Region", none, some "VARCHAR", true, 0⟩] :
          List ColumnMetadata),
        m.is_visible = true ∧ m.original_column_name = c.original_name :=
  C4_opt_in_visibility _ _ (by decide)

/-- C5: as stated the claim is false in its second half: a filename whose
stored rows exist but are all invisible yields `has_custom_names = false`
(the fallback branch runs), even though stored rows exist. -/
theorem C5_counterexample :
    ([⟨"x", some "X", none, none, false, 0⟩] : List ColumnMetadata) ≠ [] ∧
    (getColumnsDisplaySchema [⟨"x", "INTEGER"⟩]
      [⟨"x", some "X", none, none, false, 0⟩]).has_custom_names = false := by decide

/-- C5 (amended): for a filename with zero stored `ColumnMetadata` rows the
effective display schema equals the live physical schema — same columns in
physical discovery order, each with `display_name` equal to the original name,
empty description and the physical type — and carries
`has_custom_names = false`; `has_custom_names = true` holds whenever at least
one *visible* stored row exists (not merely some stored row; see the
counterexample). -/
theorem C5_effective_schema_fallback (schema : List SchemaRow)
    (stored : List ColumnMetadata) :
    getColumnsDisplaySchema schema [] =
      { has_custom_names := false
        columns := schema.map fun r =>
          { original_name := r.column_name
            display_name := r.column_name
            description := none
            data_type := some r.column_type } } ∧
    (stored.filter (·.is_visible) ≠ [] →
      (getColumnsDisplaySchema schema stored).has_custom_names = true) := by
  refine ⟨getColumnsDisplaySchema_nil schema, ?_⟩
  intro h
  rw [getColumnsDisplaySchema_of_visible schema stored h]

/-- Witness for C5: a file with one physical column and one visible stored
row reports `has_custom_names = true`. -/
theorem C5_effective_schema_fallback_witness :
    (getColumnsDisplaySchema [⟨"id", "INTEGER"⟩]
      [⟨"id", some "ID", none, some "INTEGER", true, 0⟩]).has_custom_names = true :=
  (C5_effective_schema_fallback [⟨"id", "INTEGER"⟩]
    [⟨"id", some "ID", none, some "INTEGER", true, 0⟩]).2 (by decide)

/-! ### Lemmas about the projected query builder -/

/-- C2: as stated the claim is false in its no-custom-names half. With
`has_custom_names = false` the code takes the else-branch of the projection
logic (`if columns and has_custom_names`), so an explicit request for column
`a` is ignored and the query selects `*` — all physical columns, not just the
requested one. -/
theorem C2_counterexample :
    projectionSelects (determineProjection (some ["a"]) false []).1 ["a", "b"]
      = ["a", "b"] ∧
    (["a", "b"] : List String) ≠ ["a"] := by decide

/-- C2 (amended): when an explicit column list is supplied *and* the file has
custom column names, each requested name is resolved through the first mapping
entry whose display name matches (yielding its physical name) and a requested
name with no mapping entry passes through unchanged; when the file has no
custom column names, an explicit column request is ignored and the projection
reads every physical column. -/
theorem C2_projection_resolution (cs : List String) (hcs : cs ≠ [])
    (mapping : List (String × DisplayColumn)) (physicalCols : List String) :
    (determineProjection (some cs) true mapping).1 =
      .explicitCols (cs.map fun col => (findOriginalFor mapping col).getD col) ∧
    (∀ col, (∀ p ∈ mapping, p.2.display_name ≠ col) →
      (findOriginalFor mapping col).getD col = col) ∧
    (∀ col o, findOriginalFor mapping col = some o →
      ∃ p ∈ mapping, p.1 = o ∧ p.2.display_name = col) ∧
    projectionSelects (determineProjection (some cs) false mapping).1 physicalCols
      = physicalCols := by
  have htrue : truthy (some cs) = true := by
    cases cs with
    | nil => exact absurd rfl hcs
    | cons a t => rfl
  refine ⟨?_, ?_, ?_, ?_⟩
  · have hstep : determineProjection (some cs) true mapping =
        (.explicitCols (cs.map fun col =>
          match findOriginalFor mapping col with
          | some orig => orig
          | none => col), some cs) := by
      unfold determineProjection
      rw [htrue]
      rfl
    rw [hstep]
    show Projection.explicitCols _ = Projection.explicitCols _
    congr 1
    apply List.map_congr_left
    intro col _
    cases h : findOriginalFor mapping col <;> rfl
  · intro col hno
    have h0 : mapping.find? (fun p => p.2.display_name == col) = none :=
      List.find?_eq_none.2 fun x hx => by simpa using hno x hx
    unfold findOriginalFor
    rw [h0]
    rfl
  · intro col o ho
    unfold findOriginalFor at ho
    rcases Option.map_eq_some'.1 ho with ⟨p, hfind, hp1⟩
    exact ⟨p, List.mem_of_find?_eq_some hfind, hp1,
      by simpa using List.find?_some hfind⟩
  · have hbr : determineProjection (some cs) false mapping = (.star, none) := by
      unfold determineProjection
      rw [htrue]
      rfl
    rw [hbr]
    rfl

/-- Witness for C2: requested columns `[Customer Name, extra]` with mapping
`cust_nm ↦ Customer Name`; with custom names the projection resolves to
`[cust_nm, extra]`, without custom names the same request reads all physical
columns. -/
theorem C2_projection_resolution_witness :
    (determineProjection (some ["Customer Name", "extra"]) true
      [("cust_nm", ⟨"cust_nm", "Customer Name", none, none⟩)]).1 =
      .explicitCols ["cust_nm", "extra"] ∧
    projectionSelects (determineProjection (some ["Customer Name", "extra"]) false
      [("cust_nm", ⟨"cust_nm", "Customer Name", none, none⟩)]).1 ["cust_nm", "x"]
      = ["cust_nm", "x"] := by
  have h := C2_projection_resolution ["Customer Name", "extra"] (by decide)
    [("cust_nm", ⟨"cust_nm", "Customer Name", none, none⟩)] ["cust_nm", "x"]
  exact ⟨h.1.trans (by decide), h.2.2.2⟩

/-- C7: as stated the claim is false in its every-column half. For a file with
a `DATE` column `d` and a `VARCHAR` column `s`, the built disjunction contains
a condition for `s` only — `DATE` matches neither the text nor the numeric
type test — so a row whose only match for the search term lies in `d` is not
selected. -/
theorem C7_counterexample :
    buildSearchConditions [⟨"d", "DATE"⟩, ⟨"s", "VARCHAR"⟩] = [.textCond "s"] ∧
    strContains (cellOf [("d", "2024-01-01"), ("s", "hello")] "d") "2024" = true ∧
    rowMatchesSearch [⟨"d", "DATE"⟩, ⟨"s", "VARCHAR"⟩] "2024"
      [("d", "2024-01-01"), ("s", "hello")] = false := by decide

/-- C7 (amended): the search filter is built from the full physical schema
(the construction takes only the schema, never the projection) as a
disjunction covering every text-typed and every numeric-typed column — text
columns matched case-insensitively, numeric columns against their string
representation — and nothing else; consequently a term matching in a text- or
numeric-typed column, whether or not that column is in the current
projection, selects the row. Columns of other types (e.g. `DATE`) contribute
no condition. -/
theorem C7_search_full_schema (schema : List SchemaRow) (term : String) (row : RowV) :
    (∀ r ∈ schema,
      (strContains (pyLower r.column_type) "varchar" ||
        strContains (pyLower r.column_type) "string") = true →
      SearchCond.textCond r.column_name ∈ buildSearchConditions schema) ∧
    (∀ r ∈ schema,
      (strContains (pyLower r.column_type) "varchar" ||
        strContains (pyLower r.column_type) "string") = false →
      (strContains (pyLower r.column_type) "int" ||
        strContains (pyLower r.column_type) "float" ||
        strContains (pyLower r.column_type) "double" ||
        strContains (pyLower r.column_type) "decimal") = true →
      SearchCond.numericCond r.column_name ∈ buildSearchConditions schema) ∧
    (∀ c ∈ buildSearchConditions schema,
      ∃ r ∈ schema, c = .textCond r.column_name ∨ c = .numericCond r.column_name) ∧
    (∀ r ∈ schema,
      (strContains (pyLower r.column_type) "varchar" ||
        strContains (pyLower r.column_type) "string") = true →
      strContains (pyLower (cellOf row r.column_name)) (pyLower term) = true →
      rowMatchesSearch schema term row = true) ∧
    (∀ r ∈ schema,
      (strContains (pyLower r.column_type) "varchar" ||
        strContains (pyLower r.column_type) "string") = false →
      (strContains (pyLower r.column_type) "int" ||
        strContains (pyLower r.column_type) "float" ||
        strContains (pyLower r.column_type) "double" ||
        strContains (pyLower r.column_type) "decimal") = true →
      strContains (cellOf row r.column_name) term = true →
      rowMatchesSearch schema term row = true) := by
  have h1 : ∀ r ∈ schema,
      (strContains (pyLower r.column_type) "varchar" ||
        strContains (pyLower r.column_type) "string") = true →
      SearchCond.textCond r.column_name ∈ buildSearchConditions schema := by
    intro r hr htext
    refine List.mem_filterMap.2 ⟨r, hr, ?_⟩
    dsimp only
    rw [if_pos htext]
  have h2 : ∀ r ∈ schema,
      (strContains (pyLower r.column_type) "varchar" ||
        strContains (pyLower r.column_type) "string") = false →
      (strContains (pyLower r.column_type) "int" ||
        strContains (pyLower r.column_type) "float" ||
        strContains (pyLower r.column_type) "double" ||
        strContains (pyLower r.column_type) "decimal") = true →
      SearchCond.numericCond r.column_name ∈ buildSearchConditions schema := by
    intro r hr htext hnum
    refine List.mem_filterMap.2 ⟨r, hr, ?_⟩
    dsimp only
    rw [if_neg (by rw [htext]; exact Bool.false_ne_true), if_pos hnum]
  have hmatch : ∀ c ∈ buildSearchConditions schema,
      evalSearchCond term row c = true → rowMatchesSearch schema term row = true := by
    intro c hc heval
    unfold rowMatchesSearch
    rw [Bool.or_eq_true]
    exact Or.inr (List.any_eq_true.2 ⟨c, hc, heval⟩)
  refine ⟨h1, h2, ?_, ?_, ?_⟩
  · intro c hc
    rcases List.mem_filterMap.1 hc with ⟨r, hr, hf⟩
    refine ⟨r, hr, ?_⟩
    dsimp only at hf
    split at hf
    · exact Or.inl (Option.some.injEq _ _ ▸ hf).symm
    · split at hf
      · exact Or.inr (Option.some.injEq _ _ ▸ hf).symm
      · cases hf
  · intro r hr htext hcell
    exact hmatch _ (h1 r hr htext) hcell
  · intro r hr htext hnum hcell
    exact hmatch _ (h2 r hr htext hnum) hcell

/-- Witness for C7: a `VARCHAR` column `name` whose value matches the term
case-insensitively selects the row. -/
theorem C7_search_full_schema_witness :
    rowMatchesSearch [⟨"name", "VARCHAR"⟩, ⟨"amt", "DOUBLE"⟩] "BO"
      [("name", "bob"), ("amt", "1")] = true := by
  have h := C7_search_full_schema [⟨"name", "VARCHAR"⟩, ⟨"amt", "DOUBLE"⟩] "BO"
    [("name", "bob"), ("amt", "1")]
  exact h.2.2.2.1 ⟨"name", "VARCHAR"⟩ (by decide) (by decide) (by decide)

lemma ceilDiv_facts (n k : Nat) (hk : 0 < k) :
    n ≤ k * ((n + k - 1) / k) ∧ ∀ c, n ≤ k * c → (n + k - 1) / k ≤ c := by
  constructor
  · have hdm := Nat.div_add_mod (n + k - 1) k
    have hmod := Nat.mod_lt (n + k - 1) hk
    omega
  · intro c hc
    rw [Nat.div_le_iff_le_mul_add_pred hk]
    omega

lemma sortedRowsOf_length (allRows : List RowV) (schema : List SchemaRow)
    (searchTerm : Option String) (sortLe : Option (RowV → RowV → Bool)) :
    (sortedRowsOf allRows schema searchTerm sortLe).length =
      (filteredRowsOf allRows schema searchTerm).length := by
  cases sortLe with
  | none => rfl
  | some le => exact (List.perm_insertionSort _ _).length_eq

/-- C9: for every projected data query, `total_pages` is the code's formula
`(total_rows + page_size - 1) // page_size`, which is exactly the ceiling of
`total_rows / page_size` (characterized by its two Galois bounds); the
returned rows are the filtered-and-sorted rows after skipping
`(page-1)·page_size` and taking at most `page_size`, so their number is
`min page_size (total_rows - (page-1)·page_size)`; and the count reuses only
the filter — it is unchanged under any other sort, page or page size. The
concrete instance `total_rows = 101`, `page_size = 50` giving `total_pages =
3` and one row on page 3 is the witness theorem. -/
theorem C9_pagination_arithmetic (allRows : List RowV) (schema : List SchemaRow)
    (searchTerm : Option String) (sortLe : Option (RowV → RowV → Bool))
    (page pageSize : Nat) (hps : 0 < pageSize) :
    (runDataQuery allRows schema searchTerm sortLe page pageSize).2.total_pages =
      ((runDataQuery allRows schema searchTerm sortLe page pageSize).2.total_rows
        + pageSize - 1) / pageSize ∧
    (runDataQuery allRows schema searchTerm sortLe page pageSize).2.total_rows ≤
      pageSize *
        (runDataQuery allRows schema searchTerm sortLe page pageSize).2.total_pages ∧
    (∀ k : Nat,
      (runDataQuery allRows schema searchTerm sortLe page pageSize).2.total_rows ≤
          pageSize * k →
      (runDataQuery allRows schema searchTerm sortLe page pageSize).2.total_pages ≤ k) ∧
    (runDataQuery allRows schema searchTerm sortLe page pageSize).1 =
      ((sortedRowsOf allRows schema searchTerm sortLe).drop
        ((page - 1) * pageSize)).take pageSize ∧
    (runDataQuery allRows schema searchTerm sortLe page pageSize).1.length =
      min pageSize
        ((runDataQuery allRows schema searchTerm sortLe page pageSize).2.total_rows -
          (page - 1) * pageSize) ∧
    (runDataQuery allRows schema searchTerm sortLe page pageSize).2.total_rows =
      (filteredRowsOf allRows schema searchTerm).length ∧
    ∀ (sortLe' : Option (RowV → RowV → Bool)) (page' pageSize' : Nat),
      (runDataQuery allRows schema searchTerm sortLe' page' pageSize').2.total_rows =
        (runDataQuery allRows schema searchTerm sortLe page pageSize).2.total_rows := by
  refine ⟨rfl, ?_, ?_, rfl, ?_, rfl, ?_⟩
  · exact (ceilDiv_facts (filteredRowsOf allRows schema searchTerm).length
      pageSize hps).1
  · intro k hk
    exact (ceilDiv_facts (filteredRowsOf allRows schema searchTerm).length
      pageSize hps).2 k hk
  · show (((sortedRowsOf allRows schema searchTerm sortLe).drop
        ((page - 1) * pageSize)).take pageSize).length = _
    rw [List.length_take, List.length_drop, sortedRowsOf_length]
    rfl
  · intro sortLe' page' pageSize'
    rfl

/-- Witness for C9: 101 unfiltered rows with page size 50 give 3 pages, and
page 3 holds exactly one row. -/
theorem C9_pagination_arithmetic_witness :
    (runDataQuery (List.replicate 101 ([] : RowV)) [] none none 3 50).2.total_pages
      = 3 ∧
    (runDataQuery (List.replicate 101 ([] : RowV)) [] none none 3 50).1.length = 1 := by
  have h := C9_pagination_arithmetic (List.replicate 101 ([] : RowV)) [] none none 3 50
    (by decide)
  refine ⟨h.1.trans (by decide), (h.2.2.2.2.1).trans (by decide)⟩

/-! ### Order lemmas for the lexicographic string comparison -/

lemma natListLt_asymm (x : List Nat) : ∀ y, natListLt x y = true → natListLt y x = false := by
  induction x with
  | nil =>
    intro y h
    cases y with
    | nil => simp [natListLt] at h
    | cons b bs => rfl
  | cons a as ih =>
    intro y h
    cases y with
    | nil => simp [natListLt] at h
    | cons b bs =>
      simp only [natListLt] at h ⊢
      by_cases hab : a < b
      · rw [if_neg (show ¬ b < a by omega), if_pos hab]
      · rw [if_neg hab] at h
        by_cases hba : b < a
        · rw [if_pos hba] at h
          cases h
        · rw [if_neg hba] at h
          rw [if_neg hba, if_neg hab]
          exact ih bs h

lemma natListLt_trans_false (x : List Nat) : ∀ (y z : List Nat),
    natListLt x y = false → natListLt y z = false → natListLt x z = false := by
  induction x with
  | nil =>
    intro y z h1 h2
    cases y with
    | nil => exact h2
    | cons b bs => simp [natListLt] at h1
  | cons a as ih =>
    intro y z h1 h2
    cases z with
    | nil => rfl
    | cons c cs =>
      cases y with
      | nil => simp [natListLt] at h2
      | cons b bs =>
        simp only [natListLt] at h1 h2 ⊢
        by_cases hab : a < b
        · rw [if_pos hab] at h1
          cases h1
        · rw [if_neg hab] at h1
          by_cases hbc : b < c
          · rw [if_pos hbc] at h2
            cases h2
          · rw [if_neg hbc] at h2
            rw [if_neg (show ¬ a < c by omega)]
            by_cases hca : c < a
            · rw [if_pos hca]
            · rw [if_neg hca]
              by_cases hba : b < a
              · exact absurd (show c < a by omega) hca
              · rw [if_neg hba] at h1
                by_cases hcb : c < b
                · exact absurd (show c < a by omega) hca
                · rw [if_neg hcb] at h2
                  exact ih bs cs h1 h2

lemma pyStrLt_trans_false {a b c : String} (h1 : pyStrLt a b = false)
    (h2 : pyStrLt b c = false) : pyStrLt a c = false :=
  natListLt_trans_false _ _ _ h1 h2

lemma pyStrLt_total (a b : String) : pyStrLt a b = false ∨ pyStrLt b a = false := by
  cases h : pyStrLt a b with
  | false => exact Or.inl rfl
  | true => exact Or.inr (natListLt_asymm _ _ h)

lemma pyStrLt_empty_false {s : String} (h : pyStrLt "" s = false) : s = "" := by
  unfold pyStrLt at h
  cases s with
  | mk data =>
    cases data with
    | nil => rfl
    | cons c cs => simp [natListLt] at h

/-! ### The combined file listing -/

lemma find?_meta_eq_none {metadataList : List StoredFileMetadataFull} {fn : String}
    (h : ∀ m ∈ metadataList, m.meta.filename ≠ fn) :
    metadataList.find? (fun m => m.meta.filename == fn) = none :=
  List.find?_eq_none.2 fun m hm => by simpa using h m hm

lemma find?_phys_eq_none {physicalFiles : List (String × TechnicalData)} {fn : String}
    (h : ∀ p ∈ physicalFiles, p.1 ≠ fn) :
    physicalFiles.find? (fun p => p.1 == fn) = none :=
  List.find?_eq_none.2 fun p hp => by simpa using h p hp

/-- C8: the combined listing has one record per filename in the union of the
physical directory and the metadata table (never dropping either side); a
filename with no metadata record carries the business defaults, a filename
with no physical file carries zeroed/empty technical fields; the output is
ordered by last-modified key (the `modified` string, with absent values the
empty string) descending, and once an absent key appears every later key is
also absent, i.e. absent timestamps sort last. -/
theorem C8_combined_listing (physicalFiles : List (String × TechnicalData))
    (metadataList : List StoredFileMetadataFull) :
    ((getAllFilesCombined physicalFiles metadataList).map (·.name)).Perm
      (unionFilenames physicalFiles metadataList) ∧
    (getAllFilesCombined physicalFiles metadataList).Perm
      ((unionFilenames physicalFiles metadataList).map
        (combineOne physicalFiles metadataList)) ∧
    (∀ fn, (∀ m ∈ metadataList, m.meta.filename ≠ fn) →
      (combineOne physicalFiles metadataList fn).title = none ∧
      (combineOne physicalFiles metadataList fn).permissions = "public" ∧
      (combineOne physicalFiles metadataList fn).tags = [] ∧
      (combineOne physicalFiles metadataList fn).id = none) ∧
    (∀ fn, (∀ p ∈ physicalFiles, p.1 ≠ fn) →
      (combineOne physicalFiles metadataList fn).size_bytes = 0 ∧
      (combineOne physicalFiles metadataList fn).size_mb = 0 ∧
      (combineOne physicalFiles metadataList fn).modified = "" ∧
      (combineOne physicalFiles metadataList fn).row_count = none ∧
      (combineOne physicalFiles metadataList fn).column_count = none ∧
      (combineOne physicalFiles metadataList fn).columns = []) ∧
    (getAllFilesCombined physicalFiles metadataList).Pairwise
      (fun a b => pyStrLt (combinedSortKey a) (combinedSortKey b) = false) ∧
    (getAllFilesCombined physicalFiles metadataList).Pairwise
      (fun a b => combinedSortKey a = "" → combinedSortKey b = "") := by
  have hsorted : (getAllFilesCombined physicalFiles metadataList).Pairwise
      (fun a b => pyStrLt (combinedSortKey a) (combinedSortKey b) = false) := by
    haveI : IsTotal CombinedFileInfo
        (fun a b => pyStrLt (combinedSortKey a) (combinedSortKey b) = false) :=
      ⟨fun a b => pyStrLt_total _ _⟩
    haveI : IsTrans CombinedFileInfo
        (fun a b => pyStrLt (combinedSortKey a) (combinedSortKey b) = false) :=
      ⟨fun _ _ _ => pyStrLt_trans_false⟩
    exact List.sorted_insertionSort _ _
  refine ⟨?_, List.perm_insertionSort _ _, ?_, ?_, hsorted, ?_⟩
  · have hperm := (List.perm_insertionSort
      (fun a b => pyStrLt (combinedSortKey a) (combinedSortKey b) = false)
      ((unionFilenames physicalFiles metadataList).map
        (combineOne physicalFiles metadataList))).map (·.name)
    refine hperm.trans ?_
    rw [List.map_map]
    have hcomp : ((fun x : CombinedFileInfo => x.name) ∘
        combineOne physicalFiles metadataList) = fun fn => fn := funext fun fn => rfl
    rw [hcomp, List.map_id']
  · intro fn h
    have hfind := find?_meta_eq_none h
    refine ⟨?_, ?_, ?_, ?_⟩ <;> simp [combineOne, hfind]
  · intro fn h
    have hfind := find?_phys_eq_none h
    refine ⟨?_, ?_, ?_, ?_, ?_, ?_⟩ <;> simp [combineOne, hfind, missingTechnicalData]
  · refine hsorted.imp ?_
    intro a b hab hempty
    rw [hempty] at hab
    exact pyStrLt_empty_false hab

/-- Witness for C8: one physical file without metadata gets
`permissions = "public"`, and one metadata record whose file is gone gets
zeroed technical fields. -/
theorem C8_combined_listing_witness :
    (combineOne [("a.parquet", ⟨1000, 0, "2024-01-02T00:00:00", some 10, some 2, []⟩)]
      [⟨⟨1, "gone.parquet", "T", none, none, none, "public", [], 5⟩, 4⟩]
      "a.parquet").permissions = "public" ∧
    (combineOne [("a.parquet", ⟨1000, 0, "2024-01-02T00:00:00", some 10, some 2, []⟩)]
      [⟨⟨1, "gone.parquet", "T", none, none, none, "public", [], 5⟩, 4⟩]
      "gone.parquet").size_bytes = 0 := by
  have h := C8_combined_listing
    [("a.parquet", ⟨1000, 0, "2024-01-02T00:00:00", some 10, some 2, []⟩)]
    [⟨⟨1, "gone.parquet", "T", none, none, none, "public", [], 5⟩, 4⟩]
  exact ⟨(h.2.2.1 "a.parquet" (by decide)).2.1, (h.2.2.2.1 "gone.parquet" (by decide)).1⟩

/-! ### Metadata update and history -/

lemma keys_filterMap_sublist (l : List (String × Option PVal)) :
    ((l.filterMap fun p => p.2.map fun v => (p.1, v)).map Prod.fst).Sublist
      (l.map Prod.fst) := by
  induction l with
  | nil => simp
  | cons p t ih =>
    cases hp : p.2 with
    | none =>
      rw [List.filterMap_cons, hp]
      exact ih.trans (List.map_cons _ _ _ ▸ (List.sublist_cons_self _ _).trans
        (List.Sublist.refl _))
    | some v =>
      rw [List.filterMap_cons, hp]
      simp only [Option.map_some', List.map_cons]
      exact ih.cons₂ p.1

lemma updateData_keys_nodup (patch : FileMetadataUpdate) :
    ((updateData patch).map Prod.fst).Nodup := by
  have hsub := keys_filterMap_sublist
    [("title", patch.title.map .pstr),
     ("description", patch.description.map .pstr),
     ("responsible", patch.responsible.map .pstr),
     ("frequency", patch.frequency.map .pstr),
     ("permissions", patch.permissions.map .pstr),
     ("tags", patch.tags.map .plist)]
  have h6 : (List.map Prod.fst
      [("title", patch.title.map .pstr),
       ("description", patch.description.map .pstr),
       ("responsible", patch.responsible.map .pstr),
       ("frequency", patch.frequency.map .pstr),
       ("permissions", patch.permissions.map .pstr),
       ("tags", patch.tags.map PVal.plist)]) =
      ["title", "description", "responsible", "frequency", "permissions", "tags"] := rfl
  rw [h6] at hsub
  exact List.Nodup.sublist hsub (by decide)

lemma filterMap_single_key (g : String × PVal → Option HistoryRow)
    (hg : ∀ q r, g q = some r → r.field_changed = q.1) :
    ∀ (l : List (String × PVal)), (l.map Prod.fst).Nodup →
      ∀ field v, (field, v) ∈ l →
      (l.filterMap g).filter (fun r => r.field_changed == field) =
        (g (field, v)).toList := by
  intro l
  induction l with
  | nil => intro _ field v hm; cases hm
  | cons q t ih =>
    intro hnd field v hm
    rw [List.map_cons, List.nodup_cons] at hnd
    rcases List.mem_cons.1 hm with heq | hmem
    · have hq : q = (field, v) := heq.symm
      subst hq
      have hnotail : ∀ r ∈ t.filterMap g, (r.field_changed == field) = false := by
        intro r hr
        rcases List.mem_filterMap.1 hr with ⟨q2, hq2, hgq2⟩
        rw [hg q2 r hgq2]
        have hne : q2.1 ≠ field := by
          intro hcontra
          have hmem2 : q2.1 ∈ List.map Prod.fst t := List.mem_map_of_mem Prod.fst hq2
          rw [hcontra] at hmem2
          exact hnd.1 hmem2
        simpa using hne
      have hrest : (t.filterMap g).filter (fun r => r.field_changed == field) = [] := by
        rw [List.filter_eq_nil_iff]
        intro r2 hr2
        rw [hnotail r2 hr2]
        exact Bool.false_ne_true
      rw [List.filterMap_cons]
      cases hgq : g (field, v) with
      | none =>
        dsimp only
        exact hrest
      | some r =>
        dsimp only
        have hpos : (r.field_changed == field) = true := by
          rw [hg (field, v) r hgq]
          exact beq_self_eq_true field
        rw [List.filter_cons, hpos, if_pos rfl, hrest]
        rfl
    · have hfield_ne : field ≠ q.1 := by
        intro hcontra
        apply hnd.1
        rw [← hcontra]
        exact List.mem_map.2 ⟨(field, v), hmem, rfl⟩
      rw [List.filterMap_cons]
      cases hgq : g q with
      | none =>
        dsimp only
        exact ih hnd.2 field v hmem
      | some r =>
        dsimp only
        have hneg : (r.field_changed == field) = false := by
          rw [hg q r hgq]
          exact beq_eq_false_iff_ne.2 (Ne.symm hfield_ne)
        rw [List.filter_cons, hneg, if_neg Bool.false_ne_true]
        exact ih hnd.2 field v hmem

/-- C6: for every metadata update call, an updated field whose supplied value
equals its current stored value contributes zero `MetadataHistory` rows, and
an updated field whose supplied value differs contributes exactly one row
recording the stringified old value (`NULL` stays `NULL`) and the stringified
new value. -/
theorem C6_history_on_real_change (m : StoredFileMetadata) (patch : FileMetadataUpdate)
    (changedBy : String) (now : Nat) (field : String) (v : PVal)
    (hfv : (field, v) ∈ updateData patch) :
    (getField m field = some v →
      ((updateMetadata (some m) patch changedBy now).2.1.filter
        (fun r => r.field_changed == field)) = []) ∧
    (getField m field ≠ some v →
      ((updateMetadata (some m) patch changedBy now).2.1.filter
        (fun r => r.field_changed == field)) =
        [{ file_id := m.id
           field_changed := field
           old_value := (getField m field).map PVal.pyStr
           new_value := some v.pyStr
           changed_by := changedBy }]) := by
  have hne : updateData patch ≠ [] := List.ne_nil_of_mem hfv
  have hemp : (updateData patch).isEmpty = false := by
    cases hu : (updateData patch).isEmpty
    · rfl
    · exact absurd (List.isEmpty_iff.1 hu) hne
  have hhist : (updateMetadata (some m) patch changedBy now).2.1 =
      recordHistoryChanges m (updateData patch) changedBy := by
    unfold updateMetadata
    simp only [hemp]
    rfl
  have hkey : field ∈ (updateData patch).map Prod.fst :=
    List.mem_map.2 ⟨(field, v), hfv, rfl⟩
  have hkey6 : field ∈ ["title", "description", "responsible", "frequency",
      "permissions", "tags"] := by
    have hsub := keys_filterMap_sublist
      [("title", patch.title.map .pstr),
       ("description", patch.description.map .pstr),
       ("responsible", patch.responsible.map .pstr),
       ("frequency", patch.frequency.map .pstr),
       ("permissions", patch.permissions.map .pstr),
       ("tags", patch.tags.map .plist)]
    exact hsub.subset hkey
  have hnotupd : field ≠ "updated_at" := by
    intro hcontra
    subst hcontra
    exact absurd hkey6 (by decide)
  have hg : ∀ (q : String × PVal) (r : HistoryRow),
      (if q.1 = "updated_at" then none
       else if getField m q.1 = some q.2 then none
       else some { file_id := m.id
                   field_changed := q.1
                   old_value := (getField m q.1).map PVal.pyStr
                   new_value := some q.2.pyStr
                   changed_by := changedBy }) = some r →
      r.field_changed = q.1 := by
    intro q r hq
    split at hq
    · cases hq
    · split at hq
      · cases hq
      · injection hq with h
        rw [← h]
  have hmain := filterMap_single_key _ hg (updateData patch)
    (updateData_keys_nodup patch) field v hfv
  rw [hhist]
  unfold recordHistoryChanges
  rw [hmain]
  constructor
  · intro hsame
    rw [if_neg hnotupd, if_pos hsame]
    rfl
  · intro hdiff
    rw [if_neg hnotupd, if_neg hdiff]
    rfl

/-- Witness for C6: updating `title` from `Old` to `New` produces exactly one
history row with the old and new values. -/
theorem C6_history_on_real_change_witness :
    ((updateMetadata (some ⟨1, "f.parquet", "Old", none, none, none, "public", [], 0⟩)
      ⟨some "New", none, none, none, none, none⟩ "admin" 7).2.1.filter
        (fun r => r.field_changed == "title")) =
      [⟨1, "title", some "Old", some "New", "admin"⟩] := by
  have h := C6_history_on_real_change
    ⟨1, "f.parquet", "Old", none, none, none, "public", [], 0⟩
    ⟨some "New", none, none, none, none, none⟩ "admin" 7 "title" (.pstr "New")
    (by decide)
  exact (h.2 (by decide)).trans (by decide)

/-- C10: an update whose patch supplies no field at all returns the stored
record unchanged (including `updated_at`), adds no history rows, and performs
no write. -/
theorem C10_empty_patch_noop (m : StoredFileMetadata) (changedBy : String) (now : Nat) :
    updateMetadata (some m) ⟨none, none, none, none, none, none⟩ changedBy now =
      (some m, [], false) := rfl

end ParquetViewer
